import Mathlib

/-!
Shallow embedding of the vfsgen generator and of the runtime filesystem code
it emits (the `Trailer` template of `gzip_file_server.go`), together with a
model of the serving-time compressed-file, stored-file and directory handles.

Bytes are modelled as `Nat` (Go `byte` values), Go `int`/`int64` quantities as
`Int` where negative values are reachable and as `Nat` where the source keeps
them non-negative by construction.  The gzip codec itself is external library
code (`compress/gzip`): a compressed payload is represented together with the
byte stream its decompression produces, and the generator's compressor is an
input to the packer (the source only inspects the compressed byte count).
-/

namespace Vfsgen

/-- Errors surfaced by the runtime handles.  `eofErr` stands for Go's
`io.EOF` sentinel, `unexpectedEOF` for the error `io.CopyN` returns when the
source ends early, `notFound` for `os.ErrNotExist`, `invalidOperation` for the
"cannot Read from directory" / "cannot Readdir from file" errors and
`unsupported` for the "unsupported Seek in directory" error. -/
inductive FsError where
  | eofErr
  | unexpectedEOF
  | notFound
  | invalidOperation
  | unsupported
deriving DecidableEq, Repr

/-- Model of a `gzip.Reader` over a fixed compressed payload: `stream` is the
full decompressed output of the payload and `pos` is how many bytes of that
output the reader has produced so far.  The payload is produced by this same
pipeline, so it is always valid gzip data and decoding never fails. -/
structure GzipReader where
  stream : List Nat
  pos : Nat
deriving DecidableEq, Repr

/-- Model of `gr.Reset(bytes.NewReader(f.compressedContent))`: the reader is
repositioned at the start of the same payload.  Reset only fails on invalid
gzip data, which cannot happen for pipeline-produced payloads. -/
def GzipReader.reset (g : GzipReader) : GzipReader :=
  { g with pos := 0 }

/-- Model of `gr.Read(p)` for a buffer of length `k`: produce the next
`min k remaining` bytes of the decompressed stream; report `io.EOF` when the
stream ends before the buffer is filled. -/
def GzipReader.read (g : GzipReader) (k : Nat) : Nat × List Nat × GzipReader × Option FsError :=
  let bs := (g.stream.drop g.pos).take k
  (bs.length, bs, { g with pos := g.pos + bs.length },
    if bs.length < k then some .eofErr else none)

/-- Model of `io.CopyN(ioutil.Discard, gr, m)`: decode and throw away exactly
`m` bytes, failing (with the reader drained) when fewer than `m` decompressed
bytes remain. -/
def GzipReader.copyNDiscard (g : GzipReader) (m : Int) : GzipReader × Option FsError :=
  if m ≤ (g.stream.length : Int) - (g.pos : Int) then
    ({ g with pos := g.pos + m.toNat }, none)
  else
    ({ g with pos := g.stream.length }, some .unexpectedEOF)

/-- Static definition of a gzip compressed file
(`vfsgen۰CompressedFileInfo`): name, modification time (UTC), compressed
payload and the original uncompressed size. -/
structure CompressedFileInfo where
  name : String
  modTime : Int
  compressedContent : List Nat
  uncompressedSize : Int
deriving DecidableEq, Repr

/-- Model of `CompressedFileInfo.GzipBytes`: the stored compressed payload,
unchanged. -/
def CompressedFileInfo.gzipBytes (f : CompressedFileInfo) : List Nat :=
  f.compressedContent

def CompressedFileInfo.size (f : CompressedFileInfo) : Int :=
  f.uncompressedSize

/-- Go's `os.ModeDir` bit of `os.FileMode` (a `uint32`). -/
def modeDir : Nat := 2 ^ 31

/-- Model of `os.FileMode.IsDir`: the directory bit is set. -/
def fileModeIsDir (m : Nat) : Bool := m &&& modeDir ≠ 0

/-- A file mode is read-only when none of the write permission bits `0222`
are set. -/
def fileModeReadOnly (m : Nat) : Bool := m &&& 0o222 = 0

def CompressedFileInfo.mode (_ : CompressedFileInfo) : Nat := 0o444

def CompressedFileInfo.isDir (_ : CompressedFileInfo) : Bool := false

/-- An opened compressed-file instance (`vfsgen۰CompressedFile`): the static
info, the per-handle gzip reader, `grPos` (actual uncompressed position of the
reader) and `seekPos` (requested uncompressed position). -/
structure CompressedFile where
  info : CompressedFileInfo
  gr : GzipReader
  grPos : Int
  seekPos : Int
deriving DecidableEq, Repr

/-- The final step of `CompressedFile.Read`, lines `n, err = f.gr.Read(p);
f.grPos += int64(n); f.seekPos = f.grPos`: decode into the buffer and commit
both positions. -/
def CompressedFile.readAligned (f : CompressedFile) (k : Nat) :
    Nat × List Nat × CompressedFile × Option FsError :=
  let r := f.gr.read k
  (r.1, r.2.1, { f with gr := r.2.2.1, grPos := f.grPos + r.1, seekPos := f.grPos + r.1 },
    r.2.2.2)

/-- Model of `CompressedFile.Read(p)` for a buffer of length `k`: rewind the
decompressor when `grPos > seekPos`, fast-forward by `seekPos - grPos` bytes
when `grPos < seekPos`, then decode into the buffer from the aligned
stream. -/
def CompressedFile.read (f : CompressedFile) (k : Nat) :
    Nat × List Nat × CompressedFile × Option FsError :=
  let f1 := if f.grPos > f.seekPos then
    { f with gr := f.gr.reset, grPos := 0 }
  else f
  if f1.grPos < f1.seekPos then
    match f1.gr.copyNDiscard (f1.seekPos - f1.grPos) with
    | (g2, some e) => (0, [], { f1 with gr := g2 }, some e)
    | (g2, none) => CompressedFile.readAligned { f1 with gr := g2, grPos := f1.seekPos } k
  else
    CompressedFile.readAligned f1 k

/-- Model of `CompressedFile.Seek(offset, whence)`: update `seekPos` only and
return it; `none` models the `panic` on a non-standard `whence` value
(`io.SeekStart = 0`, `io.SeekCurrent = 1`, `io.SeekEnd = 2`). -/
def CompressedFile.seek (f : CompressedFile) (offset : Int) (whence : Int) :
    Option (Int × CompressedFile) :=
  if whence = 0 then
    some (0 + offset, { f with seekPos := 0 + offset })
  else if whence = 1 then
    some (f.seekPos + offset, { f with seekPos := f.seekPos + offset })
  else if whence = 2 then
    some (f.info.uncompressedSize + offset,
      { f with seekPos := f.info.uncompressedSize + offset })
  else
    none

/-- Repeated `Read` calls with a buffer of length `k`, collecting the bytes
produced until an error (in particular `io.EOF`) is returned; `fuel` bounds
the number of calls. -/
def CompressedFile.readAll (f : CompressedFile) (k : Nat) : Nat → List Nat
  | 0 => []
  | fuel + 1 =>
    let r := f.read k
    match r.2.2.2 with
    | some _ => r.2.1
    | none => r.2.1 ++ r.2.2.1.readAll k fuel

/-- Well-formedness of an opened compressed-file handle: the committed
position `grPos` mirrors the decompressor's actual position, which never
exceeds the decompressed length. -/
def CompressedFile.wf (f : CompressedFile) : Prop :=
  f.grPos = (f.gr.pos : Int) ∧ f.gr.pos ≤ f.gr.stream.length

/-- Static definition of an uncompressed file (`vfsgen۰FileInfo`): stored
because gzip compression was not worth it. -/
structure FileInfo where
  name : String
  modTime : Int
  content : List Nat
deriving DecidableEq, Repr

def FileInfo.size (f : FileInfo) : Int := f.content.length

def FileInfo.mode (_ : FileInfo) : Nat := 0o444

def FileInfo.isDir (_ : FileInfo) : Bool := false

/-- An opened uncompressed-file instance (`vfsgen۰File`): the static info plus
the `bytes.Reader` offset. -/
structure File where
  info : FileInfo
  offset : Nat
deriving DecidableEq, Repr

/-- Static definition of a directory (`vfsgen۰DirInfo`).  Each entry of
`entries` is identified by its full child path (the generated code stores the
`os.FileInfo` of exactly that table entry). -/
structure DirInfo where
  name : String
  modTime : Int
  entries : List String
deriving DecidableEq, Repr

/-- Model of `DirInfo.Read`: always fails with the "cannot Read from
directory" error. -/
def DirInfo.readBytes (_ : DirInfo) : Except FsError Nat :=
  .error .invalidOperation

def DirInfo.size (_ : DirInfo) : Int := 0

def DirInfo.mode (_ : DirInfo) : Nat := 0o755 ||| modeDir

def DirInfo.isDir (_ : DirInfo) : Bool := true

/-- An opened directory instance (`vfsgen۰Dir`): the static info plus the
position within `entries` used by `Seek` and `Readdir`. -/
structure Dir where
  info : DirInfo
  pos : Nat
deriving DecidableEq, Repr

/-- Model of `Dir.Seek`: only a rewind to the start (`offset 0`,
`io.SeekStart`) is supported; it resets the listing cursor. -/
def Dir.seek (d : Dir) (offset : Int) (whence : Int) : Except FsError (Int × Dir) :=
  if offset = 0 ∧ whence = 0 then
    .ok (0, { d with pos := 0 })
  else
    .error .unsupported

/-- Model of `Dir.Readdir(count)`: `io.EOF` when the cursor is at the end and
`count > 0`; otherwise up to `count` entries (all remaining when
`count ≤ 0`), advancing the cursor. -/
def Dir.readdir (d : Dir) (count : Int) : Except FsError (List String × Dir) :=
  if d.pos ≥ d.info.entries.length ∧ count > 0 then
    .error .eofErr
  else
    let c : Nat :=
      if count ≤ 0 ∨ count > (d.info.entries.length : Int) - (d.pos : Int) then
        d.info.entries.length - d.pos
      else
        count.toNat
    .ok ((d.info.entries.drop d.pos).take c, { d with pos := d.pos + c })

/-- Repeated `Readdir count` calls collecting the returned entries until an
error (in particular `io.EOF`); `fuel` bounds the number of calls. -/
def Dir.readdirAll (d : Dir) (count : Int) : Nat → List String
  | 0 => []
  | fuel + 1 =>
    match d.readdir count with
    | .error _ => []
    | .ok (es, d2) => es ++ d2.readdirAll count fuel

/-- A node of the generated table: one of the three variants emitted by the
generator. -/
inductive Node where
  | fileNode : FileInfo → Node
  | compressedNode : CompressedFileInfo → Node
  | dirNode : DirInfo → Node
deriving DecidableEq, Repr

/-- An opened handle, as returned by `FS.Open`. -/
inductive Handle where
  | fileHandle : File → Handle
  | compressedHandle : CompressedFile → Handle
  | dirHandle : Dir → Handle
deriving DecidableEq, Repr

/-- Model of the `f.(gzipByter)` type assertion of the serving layer: only a
compressed-file handle implements `GzipBytes`. -/
def Handle.exposesGzip : Handle → Bool
  | .compressedHandle _ => true
  | _ => false

/-- Split a character list on `/`. -/
def splitSlash : List Char → List (List Char)
  | [] => [[]]
  | c :: rest =>
    if c = '/' then [] :: splitSlash rest
    else
      match splitSlash rest with
      | [] => [[c]]
      | s :: ss => (c :: s) :: ss

/-- One step of path normalisation: drop empty and `.` segments, let `..`
remove the preceding segment (at the root it is dropped), and keep every
other segment. -/
def cleanStep (stack : List (List Char)) (seg : List Char) : List (List Char) :=
  if seg = [] ∨ seg = ['.'] then stack
  else if seg = ['.', '.'] then stack.dropLast
  else stack ++ [seg]

/-- Model of Go's `path.Clean` for rooted paths (the generated `Open` always
calls it on `"/" + path`): collapse `.`, `..` and redundant separators and
keep the leading separator. -/
def pathClean (p : String) : String :=
  ⟨'/' :: List.intercalate ['/'] ((splitSlash ('/' :: p.data)).foldl cleanStep [])⟩

/-- Model of Go's `path.Join(dirname, name)` as used by `readDirPaths` during
the walk, where `dirname` is always rooted: `Clean(dirname + "/" + name)`. -/
def pathJoin (dirname name : String) : String :=
  pathClean (dirname ++ "/" ++ name)

/-- Lexicographic byte order on Go strings, as used by `sort.Strings`. -/
def bytesLe : List Nat → List Nat → Bool
  | [], _ => true
  | _ :: _, [] => false
  | x :: xs, y :: ys =>
    if x < y then true
    else if y < x then false
    else bytesLe xs ys

/-- String comparison by code points (Go compares strings byte-wise; on the
paths involved this is the same order). -/
def strLe (a b : String) : Bool :=
  bytesLe (a.data.map Char.toNat) (b.data.map Char.toNat)

/-- The ordering relation of `sort.Strings`, as a proposition. -/
def strLeProp (a b : String) : Prop := strLe a b = true

instance : DecidableRel strLeProp := fun a b =>
  inferInstanceAs (Decidable (strLe a b = true))

/-- Model of Go's `sort.Strings`: sort ascending by the byte-wise string
order. -/
def sortStrings (l : List String) : List String :=
  List.insertionSort strLeProp l

/-- Model of `readDirPaths(fs, dirname)`: join each immediate child name onto
the directory path and sort the full paths. -/
def readDirPaths (dirname : String) (childNames : List String) : List String :=
  sortStrings (childNames.map (pathJoin dirname))

/-- The table emitted by the generator: the path → node mapping. -/
def Table := List (String × Node)

/-- Table lookup (`f, ok := fs[path]`). -/
def lookupTable : List (String × Node) → String → Option Node
  | [], _ => none
  | (k, v) :: rest, p => if k = p then some v else lookupTable rest p

/-- The fresh handle `Open` constructs for each node variant.  `decode`
stands for the gzip library's decompression of the stored payload
(`gzip.NewReader(bytes.NewReader(f.compressedContent))`), which never fails
on pipeline-produced payloads. -/
def openNode (decode : List Nat → List Nat) : Node → Handle
  | .fileNode fi => .fileHandle ⟨fi, 0⟩
  | .compressedNode ci =>
    .compressedHandle ⟨ci, ⟨decode ci.compressedContent, 0⟩, 0, 0⟩
  | .dirNode di => .dirHandle ⟨di, 0⟩

/-- Model of the generated `FS.Open`: clean `"/" + path`, look it up, fail
with `os.ErrNotExist` when absent, otherwise return a fresh handle for the
node's variant. -/
def fsOpen (decode : List Nat → List Nat) (fs : List (String × Node)) (p : String) :
    Except FsError Handle :=
  match lookupTable fs (pathClean ("/" ++ p)) with
  | none => .error .notFound
  | some n => .ok (openNode decode n)

/-- The per-file generation error `errCompressedNotSmaller`. -/
inductive GenError where
  | compressedNotSmaller
  | walkError (msg : String)
deriving DecidableEq, Repr

/-- Model of `writeCompressedFileInfo`'s size policy: after compressing, if
the compressed byte count `sw.N` is at least the uncompressed size, fail with
`errCompressedNotSmaller`. -/
def writeCompressedFileInfo (uncompressedSize : Int) (gzLen : Int) : Except GenError Unit :=
  if gzLen ≥ uncompressedSize then .error .compressedNotSmaller else .ok ()

/-- The packer decision of `findAndWriteFiles` for one file: try the
compressed representation; on `errCompressedNotSmaller` revert and store the
original bytes verbatim.  `orig` is the file's content (whose length is the
walker-reported size) and `gz` the gzip compressor's output for it. -/
def packFile (name : String) (modTime : Int) (orig gz : List Nat) : Node :=
  match writeCompressedFileInfo (orig.length : Int) (gz.length : Int) with
  | .ok _ => .compressedNode ⟨name, modTime, gz, (orig.length : Int)⟩
  | .error _ => .fileNode ⟨name, modTime, orig⟩

/-- Model of `pathpkg.Base`: the last segment of the cleaned path (`/` for
the root). -/
def basename (p : String) : String :=
  match ((splitSlash ('/' :: p.data)).foldl cleanStep []).getLast? with
  | none => "/"
  | some seg => ⟨seg⟩

def Node.isCompressedFile : Node → Bool
  | .compressedNode _ => true
  | _ => false

def Node.isStoredFile : Node → Bool
  | .fileNode _ => true
  | _ => false

/-- One event surfaced to the walk function: a file (with its content and its
compressor output), a directory (with its immediate child names), or a
stat/read/open failure reported through the walk's `err` argument. -/
inductive WalkItem where
  | fileEvent (path : String) (modTime : Int) (orig gz : List Nat)
  | dirEvent (path : String) (modTime : Int) (childNames : List String)
  | errEvent (msg : String)
deriving DecidableEq, Repr

/-- The state `findAndWriteFiles` accumulates: the emitted table entries, the
collected directories (for the `DirEntries` template) and the two `toc`
flags. -/
structure Toc where
  table : List (String × Node)
  dirs : List (String × DirInfo)
  hasCompressedFile : Bool
  hasFile : Bool
deriving DecidableEq, Repr

/-- Model of the walk function of `findAndWriteFiles`: a reported error is
fatal; a file is packed and emitted; a directory's children are read once,
joined, sorted and recorded. -/
def walkFn (toc : Toc) (item : WalkItem) : Except GenError Toc :=
  match item with
  | .errEvent msg => .error (.walkError msg)
  | .fileEvent path modTime orig gz =>
    let node := packFile (basename path) modTime orig gz
    .ok { toc with
      table := toc.table ++ [(path, node)]
      hasCompressedFile := toc.hasCompressedFile || node.isCompressedFile
      hasFile := toc.hasFile || node.isStoredFile }
  | .dirEvent path modTime childNames =>
    let di : DirInfo := ⟨basename path, modTime, readDirPaths path childNames⟩
    .ok { toc with
      table := toc.table ++ [(path, .dirNode di)]
      dirs := toc.dirs ++ [(path, di)] }

/-- Model of `findAndWriteFiles`: fold the walk function over the walk's
events, aborting at the first error. -/
def findAndWriteFiles (items : List WalkItem) : Except GenError Toc :=
  items.foldlM walkFn ⟨[], [], false, false⟩

/-- The artifact `Generate` writes: the table and the collected directory
records (the textual serialization itself is the out-of-scope emitter). -/
structure Artifact where
  table : List (String × Node)
  dirs : List (String × DirInfo)
deriving DecidableEq, Repr

/-- Model of `Generate`: build the whole output in memory; any walk error
aborts before anything is written, so an error result carries no artifact at
all. -/
def generate (items : List WalkItem) : Except GenError Artifact :=
  match findAndWriteFiles items with
  | .error e => .error e
  | .ok toc => .ok ⟨toc.table, toc.dirs⟩

/-- The fields a Go `os.FileInfo` exposes, as reported by the `Stat` of each
handle kind (each info type returns itself from `Stat`). -/
structure StatInfo where
  name : String
  size : Int
  mode : Nat
  modTime : Int
  isDir : Bool
deriving DecidableEq, Repr

def CompressedFileInfo.stat (f : CompressedFileInfo) : StatInfo :=
  ⟨f.name, f.size, f.mode, f.modTime, f.isDir⟩

def FileInfo.stat (f : FileInfo) : StatInfo :=
  ⟨f.name, f.size, f.mode, f.modTime, f.isDir⟩

def DirInfo.stat (d : DirInfo) : StatInfo :=
  ⟨d.name, d.size, d.mode, d.modTime, d.isDir⟩

/-- The bytes of the spec's round-trip content `"ABCDEFGHIJ"`. -/
def abcBytes : List Nat := [65, 66, 67, 68, 69, 70, 71, 72, 73, 74]

/-! Helper lemmas (shared by several claim theorems). -/

/-- Net effect of one `Read` call on a well-formed handle whose requested
position lies inside the decompressed stream: the rewind/fast-forward
protocol aligns the decompressor exactly at `seekPos` and the buffer is
filled from there; both positions are committed past the bytes produced and
`io.EOF` is reported exactly when the stream ended before the buffer was
full. -/
theorem CompressedFile.read_spec (f : CompressedFile) (k : Nat)
    (hsync : f.grPos = (f.gr.pos : Int)) (hplen : f.gr.pos ≤ f.gr.stream.length)
    (h0 : 0 ≤ f.seekPos) (hle : f.seekPos ≤ (f.gr.stream.length : Int)) :
    f.read k =
      (((f.gr.stream.drop f.seekPos.toNat).take k).length,
       (f.gr.stream.drop f.seekPos.toNat).take k,
       ⟨f.info,
        ⟨f.gr.stream, f.seekPos.toNat + ((f.gr.stream.drop f.seekPos.toNat).take k).length⟩,
        f.seekPos + (((f.gr.stream.drop f.seekPos.toNat).take k).length : Int),
        f.seekPos + (((f.gr.stream.drop f.seekPos.toNat).take k).length : Int)⟩,
       if ((f.gr.stream.drop f.seekPos.toNat).take k).length < k then some FsError.eofErr
       else none) := by
  obtain ⟨info, ⟨stream, pos⟩, grPos, seekPos⟩ := f
  simp only at hsync hplen h0 hle
  unfold CompressedFile.read CompressedFile.readAligned GzipReader.read
    GzipReader.reset GzipReader.copyNDiscard
  dsimp only
  split_ifs with h1 h2 h3 h4 h5 h6 h7 h8 h9 h10 h11 h12 h13 h14 h15 <;> dsimp only at *
  · have e : (0 : Nat) + (seekPos - 0).toNat = seekPos.toNat := by omega
    rw [e, if_pos h4]
  · have e : (0 : Nat) + (seekPos - 0).toNat = seekPos.toNat := by omega
    rw [e, if_neg h4]
  · exact absurd (by omega) h3
  · exact absurd (by omega) h3
  · have hz : seekPos = 0 := by omega
    subst hz
    simp only [Int.toNat_zero, Nat.zero_add, Int.zero_add, List.drop_zero] at *
  · have hz : seekPos = 0 := by omega
    subst hz
    simp only [Int.toNat_zero, Nat.zero_add, Int.zero_add, List.drop_zero] at *
    exact absurd h6 h7
  · have hz : seekPos = 0 := by omega
    subst hz
    simp only [Int.toNat_zero, Nat.zero_add, Int.zero_add, List.drop_zero] at *
    exact absurd h8 h6
  · have hz : seekPos = 0 := by omega
    subst hz
    simp only [Int.toNat_zero, Nat.zero_add, Int.zero_add, List.drop_zero] at *
  · have e : pos + (seekPos - grPos).toNat = seekPos.toNat := by omega
    rw [e, if_pos h11]
  · have e : pos + (seekPos - grPos).toNat = seekPos.toNat := by omega
    rw [e, if_neg h11]
  · exact absurd (by omega) h10
  · exact absurd (by omega) h10
  · have e : pos = seekPos.toNat := by omega
    have hgs : grPos = seekPos := by omega
    rw [e, hgs]
  · have e : pos = seekPos.toNat := by omega
    rw [e] at h13
    exact absurd h13 h14
  · have e : pos = seekPos.toNat := by omega
    rw [e] at h13
    exact absurd h15 h13
  · have e : pos = seekPos.toNat := by omega
    have hgs : grPos = seekPos := by omega
    rw [e, hgs]

/-- Reading repeatedly from a handle whose positions are synchronized at the
decompressor's position returns exactly the rest of the decompressed
stream. -/
theorem CompressedFile.readAll_drop (fuel : Nat) :
    ∀ (f : CompressedFile) (k : Nat),
      f.grPos = (f.gr.pos : Int) → f.seekPos = (f.gr.pos : Int) →
      f.gr.pos ≤ f.gr.stream.length → 0 < k →
      f.gr.stream.length - f.gr.pos < fuel →
      f.readAll k fuel = f.gr.stream.drop f.gr.pos := by
  induction fuel with
  | zero =>
    intro f k _ _ _ _ hfuel
    omega
  | succ fuel ih =>
    intro f k hsync hseek hplen hk hfuel
    have h0 : 0 ≤ f.seekPos := by omega
    have hle : f.seekPos ≤ (f.gr.stream.length : Int) := by omega
    have htn : f.seekPos.toNat = f.gr.pos := by omega
    rw [CompressedFile.readAll, CompressedFile.read_spec f k hsync hplen h0 hle, htn]
    by_cases hlt : ((f.gr.stream.drop f.gr.pos).take k).length < k
    · rw [if_pos hlt]
      have hrem : (f.gr.stream.drop f.gr.pos).length ≤ k := by
        simp only [List.length_take, List.length_drop] at hlt ⊢
        omega
      exact List.take_of_length_le hrem
    · rw [if_neg hlt]
      have hn : ((f.gr.stream.drop f.gr.pos).take k).length = k := by
        simp only [List.length_take] at hlt ⊢
        omega
      have hkrem : k ≤ f.gr.stream.length - f.gr.pos := by
        simp only [List.length_take, List.length_drop] at hn
        omega
      rw [ih _ k (by push_cast; omega) (by push_cast; omega)
        (by simp only [hn]; omega) hk (by simp only [hn]; omega)]
      simp only [hn]
      rw [← List.drop_drop, ← hn, List.take_append_drop]

/-- The byte-wise string order is total. -/
theorem bytesLe_total : ∀ a b : List Nat, bytesLe a b = true ∨ bytesLe b a = true := by
  intro a
  induction a with
  | nil => intro b; left; rfl
  | cons x xs ih =>
    intro b
    cases b with
    | nil => right; rfl
    | cons y ys =>
      simp only [bytesLe]
      rcases Nat.lt_trichotomy x y with h | h | h
      · left
        rw [if_pos h]
      · subst h
        simpa [Nat.lt_irrefl] using ih ys
      · right
        rw [if_pos h]

/-- The byte-wise string order is transitive. -/
theorem bytesLe_trans : ∀ a b c : List Nat,
    bytesLe a b = true → bytesLe b c = true → bytesLe a c = true := by
  intro a
  induction a with
  | nil => intro b c _ _; rfl
  | cons x xs ih =>
    intro b c hab hbc
    cases b with
    | nil => simp [bytesLe] at hab
    | cons y ys =>
      cases c with
      | nil => simp [bytesLe] at hbc
      | cons z zs =>
        simp only [bytesLe] at hab hbc ⊢
        by_cases hxy : x < y
        · have hyz : y ≤ z := by
            by_contra hzy
            rw [if_neg (by omega), if_pos (by omega)] at hbc
            exact Bool.noConfusion hbc
          rw [if_pos (by omega)]
        · by_cases hyx : y < x
          · rw [if_neg hxy, if_pos hyx] at hab
            exact Bool.noConfusion hab
          · have hxy' : x = y := by omega
            subst hxy'
            rw [if_neg hxy, if_neg hyx] at hab
            by_cases hxz : x < z
            · rw [if_pos hxz]
            · by_cases hzx : z < x
              · rw [if_neg hxz, if_pos hzx] at hbc
                exact Bool.noConfusion hbc
              · rw [if_neg hxz, if_neg hzx] at hbc ⊢
                exact ih ys zs hab hbc

instance : IsTotal String strLeProp :=
  ⟨fun a b => bytesLe_total (a.data.map Char.toNat) (b.data.map Char.toNat)⟩

instance : IsTrans String strLeProp :=
  ⟨fun _ _ _ hab hbc => bytesLe_trans _ _ _ hab hbc⟩

/-- The sort used for directory entries is sorted with respect to the
byte-wise string order. -/
theorem sortStrings_sorted (l : List String) : List.Sorted strLeProp (sortStrings l) :=
  List.sorted_insertionSort strLeProp l

/-- The sort used for directory entries is a permutation of its input. -/
theorem sortStrings_perm (l : List String) : (sortStrings l).Perm l :=
  List.perm_insertionSort strLeProp l

/-- Repeated positive-count `Readdir` calls return exactly the remaining
entries, in order. -/
theorem Dir.readdirAll_drop (fuel : Nat) :
    ∀ (d : Dir) (count : Int), 0 < count → d.pos ≤ d.info.entries.length →
      d.info.entries.length - d.pos < fuel →
      d.readdirAll count fuel = d.info.entries.drop d.pos := by
  induction fuel with
  | zero =>
    intro d count _ _ hfuel
    omega
  | succ fuel ih =>
    intro d count hc hpos hfuel
    rw [Dir.readdirAll]
    unfold Dir.readdir
    by_cases hend : d.pos ≥ d.info.entries.length ∧ count > 0
    · rw [if_pos hend]
      exact (List.drop_eq_nil_of_le hend.1).symm
    · rw [if_neg hend]
      have hlt : d.pos < d.info.entries.length := by
        rcases not_and_or.mp hend with h | h
        · omega
        · exact absurd hc h
      dsimp only
      by_cases hbig : count ≤ 0 ∨ count > (d.info.entries.length : Int) - (d.pos : Int)
      · rw [if_pos hbig]
        rw [List.take_of_length_le (by simp)]
        rw [ih ⟨d.info, d.pos + (d.info.entries.length - d.pos)⟩ count hc
          (by dsimp only; omega) (by dsimp only; omega)]
        simp only
        rw [show d.pos + (d.info.entries.length - d.pos) = d.info.entries.length by omega]
        simp
      · rw [if_neg hbig]
        have hcle : count.toNat ≤ d.info.entries.length - d.pos := by omega
        rw [ih ⟨d.info, d.pos + count.toNat⟩ count hc (by dsimp only; omega)
          (by dsimp only; omega)]
        simp only
        rw [← List.drop_drop, List.take_append_drop]

/-- Any prefix of non-error walk events folds to a success, so the first
reported error aborts the whole walk with exactly that error. -/
theorem findAndWriteFiles_first_err (msg : String) (post : List WalkItem) :
    ∀ (pre : List WalkItem) (toc : Toc), (∀ m, WalkItem.errEvent m ∉ pre) →
      List.foldlM walkFn toc (pre ++ WalkItem.errEvent msg :: post)
        = .error (GenError.walkError msg) := by
  intro pre
  induction pre with
  | nil =>
    intro toc _
    rfl
  | cons x pre ih =>
    intro toc hpre
    have hrest : ∀ m, WalkItem.errEvent m ∉ pre := by
      intro m hm
      exact hpre m (List.mem_cons_of_mem _ hm)
    cases x with
    | errEvent m => exact absurd (List.mem_cons_self _ _) (hpre m)
    | fileEvent path mtime orig gz =>
      rw [List.cons_append, List.foldlM_cons]
      exact ih _ hrest
    | dirEvent path mtime childNames =>
      rw [List.cons_append, List.foldlM_cons]
      exact ih _ hrest

/-! Claim theorems. -/

/-- C3: the generator chooses the Compressed representation exactly when the
gzip output is strictly smaller than the original; otherwise the attempt is
discarded, the Stored node holds the original bytes verbatim, and the handle
opened on it exposes no gzip capability. -/
theorem claim_C3 (name : String) (mt : Int) (orig gz : List Nat) :
    ((packFile name mt orig gz).isCompressedFile = true ↔ gz.length < orig.length) ∧
    (gz.length < orig.length →
      packFile name mt orig gz = Node.compressedNode ⟨name, mt, gz, (orig.length : Int)⟩) ∧
    (orig.length ≤ gz.length →
      packFile name mt orig gz = Node.fileNode ⟨name, mt, orig⟩ ∧
      ∀ decode : List Nat → List Nat,
        (openNode decode (packFile name mt orig gz)).exposesGzip = false) := by
  unfold packFile writeCompressedFileInfo
  by_cases h : (gz.length : Int) ≥ (orig.length : Int)
  · rw [if_pos h]
    refine ⟨by simp [Node.isCompressedFile]; omega, fun hlt => absurd hlt (by omega), ?_⟩
    intro _
    exact ⟨rfl, fun decode => by simp [openNode, Handle.exposesGzip, if_pos h]⟩
  · rw [if_neg h]
    exact ⟨by simp [Node.isCompressedFile]; omega, fun _ => rfl,
      fun hle => absurd hle (by omega)⟩

theorem claim_C3_witness :
    ((([2, 2] : List Nat).length < ([9] : List Nat).length →
        packFile "f" 0 [9] [2, 2] = Node.compressedNode ⟨"f", 0, [2, 2], 1⟩) ∧
      (([9] : List Nat).length ≤ ([2, 2] : List Nat).length ∧
        packFile "f" 0 [9] [2, 2] = Node.fileNode ⟨"f", 0, [9]⟩ ∧
        (openNode (fun _ => []) (packFile "f" 0 [9] [2, 2])).exposesGzip = false)) :=
  ⟨(claim_C3 "f" 0 [9] [2, 2]).2.1,
    by decide,
    ((claim_C3 "f" 0 [9] [2, 2]).2.2 (by decide)).1,
    ((claim_C3 "f" 0 [9] [2, 2]).2.2 (by decide)).2 (fun _ => [])⟩

/-- C4: `Seek` on a compressed-file handle only updates `seekPos` (absolute,
relative to current, or relative to the end using the uncompressed size) and
returns the new position; the decompressor state `gr`, the committed
position `grPos` and the static info (including the compressed payload) are
untouched. -/
theorem claim_C4 (f : CompressedFile) (off w : Int) (hw : w = 0 ∨ w = 1 ∨ w = 2) :
    ∃ p, f.seek off w = some (p, { f with seekPos := p }) ∧
      p = if w = 0 then off
        else if w = 1 then f.seekPos + off
        else f.info.uncompressedSize + off := by
  rcases hw with h | h | h <;> subst h
  · exact ⟨off, by simp [CompressedFile.seek], by norm_num⟩
  · exact ⟨f.seekPos + off, by simp [CompressedFile.seek], by norm_num⟩
  · exact ⟨f.info.uncompressedSize + off, by simp [CompressedFile.seek], by norm_num⟩

theorem claim_C4_witness :
    ((2 : Int) = 0 ∨ (2 : Int) = 1 ∨ (2 : Int) = 2) ∧
    ∃ p, CompressedFile.seek ⟨⟨"f", 0, [3], 10⟩, ⟨[7, 7], 0⟩, 0, 0⟩ 4 2 =
        some (p, { (⟨⟨"f", 0, [3], 10⟩, ⟨[7, 7], 0⟩, 0, 0⟩ : CompressedFile) with seekPos := p }) ∧
      p = if (2 : Int) = 0 then 4
        else if (2 : Int) = 1 then 0 + 4
        else 10 + 4 :=
  ⟨by decide, claim_C4 ⟨⟨"f", 0, [3], 10⟩, ⟨[7, 7], 0⟩, 0, 0⟩ 4 2 (by decide)⟩

/-- C6 (counterexample to the claim as stated): the mode a directory handle
reports is `0755 | ModeDir`, whose owner-write permission bit is set, so it
is not a read-only mode. -/
theorem claim_C6_counterexample :
    fileModeReadOnly (DirInfo.stat ⟨"d", 0, []⟩).mode = false := by decide

/-- C6 (amended): `Stat` reports the node's name and modification time, a
size equal to the uncompressed size for both file kinds (and 0 for
directories), mode `0444` (read-only) for both file kinds, and mode
`0755 | ModeDir` (owner-writable) for directories; the directory bit of the
mode is set exactly when the node is a directory. -/
theorem claim_C6 (fi : FileInfo) (ci : CompressedFileInfo) (di : DirInfo) :
    ci.stat.name = ci.name ∧ ci.stat.modTime = ci.modTime ∧
    ci.stat.size = ci.uncompressedSize ∧ ci.stat.mode = 0o444 ∧
    fileModeReadOnly ci.stat.mode = true ∧ fileModeIsDir ci.stat.mode = false ∧
    ci.stat.isDir = false ∧
    fi.stat.name = fi.name ∧ fi.stat.modTime = fi.modTime ∧
    fi.stat.size = (fi.content.length : Int) ∧ fi.stat.mode = 0o444 ∧
    fileModeReadOnly fi.stat.mode = true ∧ fileModeIsDir fi.stat.mode = false ∧
    fi.stat.isDir = false ∧
    di.stat.name = di.name ∧ di.stat.modTime = di.modTime ∧
    di.stat.size = 0 ∧ di.stat.mode = (0o755 ||| modeDir) ∧
    fileModeReadOnly di.stat.mode = false ∧ fileModeIsDir di.stat.mode = true ∧
    di.stat.isDir = true := by
  exact ⟨rfl, rfl, rfl, rfl, (by decide : fileModeReadOnly 0o444 = true),
    (by decide : fileModeIsDir 0o444 = false), rfl, rfl, rfl, rfl, rfl,
    (by decide : fileModeReadOnly 0o444 = true),
    (by decide : fileModeIsDir 0o444 = false), rfl, rfl, rfl, rfl, rfl,
    (by decide : fileModeReadOnly (0o755 ||| modeDir) = false),
    (by decide : fileModeIsDir (0o755 ||| modeDir) = true), rfl⟩

/-- C7: `Read` on a directory handle always fails with the invalid-operation
error; `Seek` succeeds only for offset 0 from the start (resetting the
listing cursor) and fails with the unsupported error otherwise. -/
theorem claim_C7 (di : DirInfo) (d : Dir) (off w : Int) :
    di.readBytes = .error .invalidOperation ∧
    (off = 0 ∧ w = 0 → d.seek off w = .ok (0, { d with pos := 0 })) ∧
    (¬(off = 0 ∧ w = 0) → d.seek off w = .error .unsupported) := by
  refine ⟨rfl, fun h => ?_, fun h => ?_⟩
  · simp [Dir.seek, h]
  · simp [Dir.seek, h]

theorem claim_C7_witness :
    (DirInfo.readBytes ⟨"d", 0, ["/a"]⟩ = .error .invalidOperation) ∧
    (((0 : Int) = 0 ∧ (0 : Int) = 0) ∧
      Dir.seek ⟨⟨"d", 0, ["/a"]⟩, 1⟩ 0 0 =
        .ok (0, { (⟨⟨"d", 0, ["/a"]⟩, 1⟩ : Dir) with pos := 0 })) ∧
    (¬((3 : Int) = 0 ∧ (1 : Int) = 0) ∧
      Dir.seek ⟨⟨"d", 0, ["/a"]⟩, 1⟩ 3 1 = .error .unsupported) :=
  ⟨(claim_C7 ⟨"d", 0, ["/a"]⟩ ⟨⟨"d", 0, ["/a"]⟩, 1⟩ 0 0).1,
    ⟨by decide, (claim_C7 ⟨"d", 0, ["/a"]⟩ ⟨⟨"d", 0, ["/a"]⟩, 1⟩ 0 0).2.1 (by decide)⟩,
    ⟨by decide, (claim_C7 ⟨"d", 0, ["/a"]⟩ ⟨⟨"d", 0, ["/a"]⟩, 1⟩ 3 1).2.2 (by decide)⟩⟩

/-- C10: `Seek` on a compressed-file handle always succeeds for the three
standard whence values and returns the computed target even when it is
negative or beyond the uncompressed size; any other whence value hits the
panic branch; a requested position beyond the decompressed stream only fails
at the next `Read` (with the fast-forward error). -/
theorem claim_C10 (f : CompressedFile) (off : Int) (k : Nat) :
    (f.seek off 0 = some (off, { f with seekPos := off })) ∧
    (f.seek off 1 = some (f.seekPos + off, { f with seekPos := f.seekPos + off })) ∧
    (f.seek off 2 = some (f.info.uncompressedSize + off,
      { f with seekPos := f.info.uncompressedSize + off })) ∧
    (∀ w : Int, w ≠ 0 → w ≠ 1 → w ≠ 2 → f.seek off w = none) ∧
    (f.wf → (f.gr.stream.length : Int) < f.seekPos →
      f.read k = (0, [], { f with gr := ⟨f.gr.stream, f.gr.stream.length⟩ },
        some FsError.unexpectedEOF)) := by
  refine ⟨by simp [CompressedFile.seek], by simp [CompressedFile.seek],
    by simp [CompressedFile.seek], fun w h0 h1 h2 => by simp [CompressedFile.seek, h0, h1, h2],
    fun hwf hbig => ?_⟩
  obtain ⟨hsync, hplen⟩ := hwf
  have h1 : ¬(f.grPos > f.seekPos) := by omega
  have h2 : f.grPos < f.seekPos := by omega
  have h3 : ¬(f.seekPos - f.grPos ≤ (f.gr.stream.length : Int) - (f.gr.pos : Int)) := by omega
  unfold CompressedFile.read
  rw [if_neg h1, if_pos h2]
  unfold GzipReader.copyNDiscard
  rw [if_neg h3]

theorem claim_C10_witness :
    CompressedFile.wf ⟨⟨"f", 0, [1], 3⟩, ⟨[5, 6], 0⟩, 0, 5⟩ ∧
    (((2 : Nat) : Int) < 5) ∧
    CompressedFile.read ⟨⟨"f", 0, [1], 3⟩, ⟨[5, 6], 0⟩, 0, 5⟩ 1 =
      (0, [], ⟨⟨"f", 0, [1], 3⟩, ⟨[5, 6], 2⟩, 0, 5⟩, some FsError.unexpectedEOF) :=
  ⟨⟨by decide, by decide⟩, by decide,
    (claim_C10 ⟨⟨"f", 0, [1], 3⟩, ⟨[5, 6], 0⟩, 0, 5⟩ 7 1).2.2.2.2
      ⟨by decide, by decide⟩ (by decide)⟩

/-- C1: `Read` on a well-formed compressed-file handle follows the lazy
rewind/fast-forward protocol: the bytes decoded into the buffer are exactly
the decompressed stream starting at the requested position `seekPos` (the
decompressor having been restarted when `grPos > seekPos` and fast-forwarded
by exactly `seekPos - grPos` discarded bytes when `grPos < seekPos`), the
returned count is the number of bytes produced, both `grPos` and `seekPos`
advance to `seekPos + n` with the decompressor re-synchronized there, and
`io.EOF` is reported exactly when the stream ended before the buffer was
filled. -/
theorem claim_C1 (f : CompressedFile) (k : Nat)
    (hwf : f.wf) (h0 : 0 ≤ f.seekPos) (hle : f.seekPos ≤ (f.gr.stream.length : Int)) :
    (f.read k).2.1 = (f.gr.stream.drop f.seekPos.toNat).take k ∧
    (f.read k).1 = (f.read k).2.1.length ∧
    (f.read k).2.2.1.grPos = f.seekPos + ((f.read k).1 : Int) ∧
    (f.read k).2.2.1.seekPos = (f.read k).2.2.1.grPos ∧
    (f.read k).2.2.1.gr.pos = f.seekPos.toNat + (f.read k).1 ∧
    (f.read k).2.2.1.gr.stream = f.gr.stream ∧
    (f.read k).2.2.1.info = f.info ∧
    ((f.read k).2.2.2 = some FsError.eofErr ↔ (f.read k).1 < k) := by
  rw [CompressedFile.read_spec f k hwf.1 hwf.2 h0 hle]
  refine ⟨rfl, rfl, rfl, rfl, rfl, rfl, rfl, ?_⟩
  by_cases h : ((f.gr.stream.drop f.seekPos.toNat).take k).length < k
  · simp [h]
  · simp [h]

theorem claim_C1_witness :
    CompressedFile.wf ⟨⟨"f", 0, [9], 3⟩, ⟨[10, 11, 12], 3⟩, 3, 1⟩ ∧
    (0 : Int) ≤ 1 ∧ (1 : Int) ≤ (([10, 11, 12] : List Nat).length : Int) ∧
    (CompressedFile.read ⟨⟨"f", 0, [9], 3⟩, ⟨[10, 11, 12], 3⟩, 3, 1⟩ 2).2.1 =
      (([10, 11, 12] : List Nat).drop (Int.toNat 1)).take 2 ∧
    (CompressedFile.read ⟨⟨"f", 0, [9], 3⟩, ⟨[10, 11, 12], 3⟩, 3, 1⟩ 2).2.2.1.grPos =
      1 + ((CompressedFile.read ⟨⟨"f", 0, [9], 3⟩, ⟨[10, 11, 12], 3⟩, 3, 1⟩ 2).1 : Int) :=
  ⟨⟨by decide, by decide⟩, by decide, by decide,
    (claim_C1 ⟨⟨"f", 0, [9], 3⟩, ⟨[10, 11, 12], 3⟩, 3, 1⟩ 2
      ⟨by decide, by decide⟩ (by decide) (by decide)).1,
    (claim_C1 ⟨⟨"f", 0, [9], 3⟩, ⟨[10, 11, 12], 3⟩, 3, 1⟩ 2
      ⟨by decide, by decide⟩ (by decide) (by decide)).2.2.1⟩

/-- C2: for a file whose gzip output is strictly smaller than its content,
the generator stores the Compressed representation; `GzipBytes` on the
resulting handle returns exactly the generation-time gzip payload; reading
the freshly opened handle to exhaustion reproduces the original bytes
(`decode` is the gzip library's decompression, and `decode gz = orig` is the
gzip round-trip guarantee); and the `Seek`/`Read` round trip on content
`"ABCDEFGHIJ"` yields `"FGH"` then, after the backward seek restart,
`"CD"`. -/
theorem claim_C2 (name : String) (mt : Int) (orig gz : List Nat)
    (decode : List Nat → List Nat)
    (hlt : gz.length < orig.length) (hdec : decode gz = orig) :
    packFile name mt orig gz = Node.compressedNode ⟨name, mt, gz, (orig.length : Int)⟩ ∧
    openNode decode (packFile name mt orig gz) =
      Handle.compressedHandle ⟨⟨name, mt, gz, (orig.length : Int)⟩, ⟨orig, 0⟩, 0, 0⟩ ∧
    CompressedFileInfo.gzipBytes ⟨name, mt, gz, (orig.length : Int)⟩ = gz ∧
    (∀ k fuel : Nat, 0 < k → orig.length < fuel →
      CompressedFile.readAll ⟨⟨name, mt, gz, (orig.length : Int)⟩, ⟨orig, 0⟩, 0, 0⟩ k fuel
        = orig) ∧
    (∀ ci : CompressedFileInfo, ∃ f1 f2 f3 : CompressedFile,
      (⟨ci, ⟨abcBytes, 0⟩, 0, 0⟩ : CompressedFile).seek 5 0 = some (5, f1) ∧
      f1.read 3 = (3, [70, 71, 72], f2, none) ∧
      f2.seek 2 0 = some (2, f3) ∧
      f3.grPos = 8 ∧ f3.seekPos = 2 ∧
      f3.read 2 = (2, [67, 68], ⟨ci, ⟨abcBytes, 4⟩, 4, 4⟩, none)) := by
    have hpack : packFile name mt orig gz
        = Node.compressedNode ⟨name, mt, gz, (orig.length : Int)⟩ := by
      unfold packFile writeCompressedFileInfo
      rw [if_neg (by omega)]
    refine ⟨hpack, ?_, rfl, ?_, ?_⟩
    · rw [hpack]
      unfold openNode
      dsimp only
      rw [hdec]
    · intro k fuel hk hfuel
      exact CompressedFile.readAll_drop fuel _ k rfl rfl (by simp) hk (by simpa)
    · intro ci
      exact ⟨⟨ci, ⟨abcBytes, 0⟩, 0, 5⟩, ⟨ci, ⟨abcBytes, 8⟩, 8, 8⟩,
        ⟨ci, ⟨abcBytes, 8⟩, 8, 2⟩, rfl, rfl, rfl, rfl, rfl, rfl⟩

theorem claim_C2_witness :
    (([1] : List Nat).length < ([0, 0, 0, 0] : List Nat).length) ∧
    ((fun _ : List Nat => ([0, 0, 0, 0] : List Nat)) [1] = [0, 0, 0, 0]) ∧
    packFile "f" 0 [0, 0, 0, 0] [1] = Node.compressedNode ⟨"f", 0, [1], 4⟩ ∧
    CompressedFile.readAll ⟨⟨"f", 0, [1], 4⟩, ⟨[0, 0, 0, 0], 0⟩, 0, 0⟩ 3 5 = [0, 0, 0, 0] :=
  ⟨by decide, rfl,
    (claim_C2 "f" 0 [0, 0, 0, 0] [1] (fun _ => [0, 0, 0, 0]) (by decide) rfl).1,
    (claim_C2 "f" 0 [0, 0, 0, 0] [1] (fun _ => [0, 0, 0, 0]) (by decide) rfl).2.2.2.1
      3 5 (by decide) (by decide)⟩

/-- C5: `Readdir(n)` returns up to `n` child records (all remaining when
`n ≤ 0`) in the stored order, advancing the cursor; when the cursor is at or
past the end and `n > 0` it signals end-of-listing (`io.EOF`); and for a
directory built by the generator the concatenation of successive `Readdir`
results is exactly the recorded children, which are the child paths in
ascending lexicographic order by full path with no duplicates or
omissions. -/
theorem claim_C5 (d : Dir) (count : Int) (dirname : String)
    (childNames : List String) (mt : Int) :
    (d.pos ≥ d.info.entries.length ∧ 0 < count → d.readdir count = .error .eofErr) ∧
    (count ≤ 0 → d.pos ≤ d.info.entries.length →
      d.readdir count = .ok (d.info.entries.drop d.pos, ⟨d.info, d.info.entries.length⟩)) ∧
    (0 < count → d.pos < d.info.entries.length →
      d.readdir count =
        .ok ((d.info.entries.drop d.pos).take
            (min count.toNat (d.info.entries.length - d.pos)),
          ⟨d.info, d.pos + min count.toNat (d.info.entries.length - d.pos)⟩)) ∧
    (∀ fuel : Nat, 0 < count → (readDirPaths dirname childNames).length < fuel →
      Dir.readdirAll ⟨⟨basename dirname, mt, readDirPaths dirname childNames⟩, 0⟩ count fuel
        = readDirPaths dirname childNames) ∧
    List.Sorted strLeProp (readDirPaths dirname childNames) ∧
    (readDirPaths dirname childNames).Perm (childNames.map (pathJoin dirname)) := by
  refine ⟨fun h => ?_, fun hc hpos => ?_, fun hc hpos => ?_, fun fuel hc hfuel => ?_,
    sortStrings_sorted _, sortStrings_perm _⟩
  · unfold Dir.readdir
    rw [if_pos h]
  · unfold Dir.readdir
    rw [if_neg (fun h => absurd h.2 (by omega))]
    dsimp only
    rw [if_pos (Or.inl hc)]
    rw [List.take_of_length_le (by simp)]
    rw [show d.pos + (d.info.entries.length - d.pos) = d.info.entries.length by omega]
  · unfold Dir.readdir
    rw [if_neg (fun h => absurd h.1 (by omega))]
    dsimp only
    by_cases hb : count > (d.info.entries.length : Int) - (d.pos : Int)
    · rw [if_pos (Or.inr hb)]
      rw [show min count.toNat (d.info.entries.length - d.pos)
        = d.info.entries.length - d.pos by omega]
    · rw [if_neg (by omega)]
      rw [show min count.toNat (d.info.entries.length - d.pos) = count.toNat by omega]
  · rw [Dir.readdirAll_drop fuel _ count hc (by dsimp only; omega)
      (by dsimp only; omega)]
    simp

theorem claim_C5_witness :
    ((2 : Int) ≤ 0 ∧ (0 : Nat) ≤ (["/d/a", "/d/b"] : List String).length) = False ∧
    (0 : Int) < 2 ∧ (0 : Nat) < (["/d/a", "/d/b"] : List String).length ∧
    Dir.readdir ⟨⟨"d", 0, ["/d/a", "/d/b"]⟩, 0⟩ 2 =
      .ok (((["/d/a", "/d/b"] : List String).drop 0).take
          (min (Int.toNat 2) ((["/d/a", "/d/b"] : List String).length - 0)),
        ⟨⟨"d", 0, ["/d/a", "/d/b"]⟩,
          0 + min (Int.toNat 2) ((["/d/a", "/d/b"] : List String).length - 0)⟩) ∧
    (0 : Int) < 2 ∧ (readDirPaths "/d" ["b", "a"]).length < 3 ∧
    Dir.readdirAll ⟨⟨basename "/d", 7, readDirPaths "/d" ["b", "a"]⟩, 0⟩ 2 3
      = readDirPaths "/d" ["b", "a"] :=
  ⟨by decide, by decide, by decide,
    (claim_C5 ⟨⟨"d", 0, ["/d/a", "/d/b"]⟩, 0⟩ 2 "/d" ["b", "a"] 7).2.2.1
      (by decide) (by decide),
    by decide, by decide,
    (claim_C5 ⟨⟨"d", 0, ["/d/a", "/d/b"]⟩, 0⟩ 2 "/d" ["b", "a"] 7).2.2.2.1
      3 (by decide) (by decide)⟩

/-- C8: `Open` first normalizes the path — prepending the separator and
collapsing `.`, `..` and redundant separators — then looks the normalized
path up in the table; an absent path fails with the not-found error, and a
present one yields a fresh handle matching the node's variant (stored file,
compressed file or directory), each with its cursor state at zero. -/
theorem claim_C8 (decode : List Nat → List Nat) (fs : List (String × Node)) (p : String) :
    (lookupTable fs (pathClean ("/" ++ p)) = none →
      fsOpen decode fs p = .error .notFound) ∧
    (∀ n, lookupTable fs (pathClean ("/" ++ p)) = some n →
      fsOpen decode fs p = .ok (openNode decode n)) ∧
    (∀ fi, openNode decode (.fileNode fi) = .fileHandle ⟨fi, 0⟩) ∧
    (∀ ci, openNode decode (.compressedNode ci) =
      .compressedHandle ⟨ci, ⟨decode ci.compressedContent, 0⟩, 0, 0⟩) ∧
    (∀ di, openNode decode (.dirNode di) = .dirHandle ⟨di, 0⟩) ∧
    pathClean ("/" ++ "a//b/./x/../c") = "/a/b/c" ∧
    pathClean ("/" ++ "../q") = "/q" ∧
    pathClean ("/" ++ "") = "/" ∧
    ∃ cs, (pathClean ("/" ++ p)).data = '/' :: cs := by
  refine ⟨fun h => ?_, fun n h => ?_, fun _ => rfl, fun _ => rfl, fun _ => rfl,
    rfl, rfl, rfl, ⟨_, rfl⟩⟩
  · unfold fsOpen
    rw [h]
  · unfold fsOpen
    rw [h]

theorem claim_C8_witness :
    lookupTable [] (pathClean ("/" ++ "missing")) = none ∧
    fsOpen (fun _ => []) [] "missing" = .error .notFound ∧
    lookupTable [("/d", Node.dirNode ⟨"d", 0, []⟩)] (pathClean ("/" ++ "d"))
      = some (Node.dirNode ⟨"d", 0, []⟩) ∧
    fsOpen (fun _ => []) [("/d", Node.dirNode ⟨"d", 0, []⟩)] "d"
      = .ok (openNode (fun _ => []) (Node.dirNode ⟨"d", 0, []⟩)) :=
  ⟨rfl, (claim_C8 (fun _ => []) [] "missing").1 rfl, rfl,
    (claim_C8 (fun _ => []) [("/d", Node.dirNode ⟨"d", 0, []⟩)] "d").2.1 _ rfl⟩

/-- C9: a stat/read/open failure surfaced during the walk aborts `Generate`
at that point: the first reported walk error is propagated as the result and
no artifact is produced at all (the output file is only written after the
whole generation succeeded). -/
theorem claim_C9 (msg : String) (pre post : List WalkItem)
    (hpre : ∀ m, WalkItem.errEvent m ∉ pre) :
    generate (pre ++ WalkItem.errEvent msg :: post)
      = .error (GenError.walkError msg) ∧
    ∀ a : Artifact, generate (pre ++ WalkItem.errEvent msg :: post) ≠ .ok a := by
  have h := findAndWriteFiles_first_err msg post pre ⟨[], [], false, false⟩ hpre
  unfold generate findAndWriteFiles
  rw [h]
  exact ⟨rfl, fun a hcontra => Except.noConfusion hcontra⟩

theorem claim_C9_witness :
    (∀ m, WalkItem.errEvent m ∉ [WalkItem.dirEvent "/" 0 []]) ∧
    generate [WalkItem.dirEvent "/" 0 [], WalkItem.errEvent "permission denied"]
      = .error (GenError.walkError "permission denied") :=
  ⟨fun m hm => by simp at hm,
    (claim_C9 "permission denied" [WalkItem.dirEvent "/" 0 []] []
      (fun m hm => by simp at hm)).1⟩

end Vfsgen
